import Mathlib

/-!
Verification of the mongo_magic object-document mapping layer.

The development shallowly embeds the Python sources under src/mongo_magic
(mongo_doc.py and model_instance.py).  A Python dict is modelled as an
ordered association list from field names to BSON-like values; the database
is a map from collection names to lists of stored documents together with a
trace of the driver calls issued.  Exceptions are modelled with Except, and
functions that both mutate state and may raise return the mutated state next
to the Except result, mirroring the fact that a raised Python exception does
not roll back prior mutations.
-/

namespace MongoMagic

/-- BSON-like values stored in documents.  A plain dict value and an
embedded Document instance are distinguished because Document.__init__
treats them differently: isinstance(v, Document) triggers flattening.
A Document instance stores its fields in the instance attribute mapping
(self.__dict__), which is what this list models. -/
inductive Value where
  | null : Value
  | int : Int → Value
  | str : String → Value
  | bool : Bool → Value
  | oid : Nat → Value
  | dict : List (String × Value) → Value
  | docInst : List (String × Value) → Value

/-- The attribute mapping of a Document instance, and also the shape of a
stored database record: an ordered association list, as a Python dict. -/
abbrev Doc := List (String × Value)

/-- Python dict lookup: d[k], first binding wins (dicts have unique keys). -/
def lookupAssoc {α : Type} : List (String × α) → String → Option α
  | [], _ => none
  | (k1, v) :: rest, k => if k1 = k then some v else lookupAssoc rest k

/-- Python dict assignment d[k] = v: overwrite in place, else append. -/
def setField {α : Type} : List (String × α) → String → α → List (String × α)
  | [], k, v => [(k, v)]
  | (k1, v1) :: rest, k, v =>
    if k1 = k then (k, v) :: rest else (k1, v1) :: setField rest k v

/-- Python del d[k] / d.pop(k): drop the binding of k. -/
def removeField {α : Type} : List (String × α) → String → List (String × α)
  | [], _ => []
  | (k1, v1) :: rest, k =>
    if k1 = k then rest else (k1, v1) :: removeField rest k

/-- Python d.update(other): assign every binding of other into d, in order. -/
def updateFields {α : Type} (base d : List (String × α)) : List (String × α) :=
  d.foldl (fun acc kv => setField acc kv.1 kv.2) base

mutual
/-- Structural equality of BSON values, the equality the driver applies to
filters such as the identity filter of replace_one. -/
def eqValue : Value → Value → Bool
  | .null, .null => true
  | .int a, .int b => a == b
  | .str a, .str b => a == b
  | .bool a, .bool b => a == b
  | .oid a, .oid b => a == b
  | .dict a, .dict b => eqFields a b
  | .docInst a, .docInst b => eqFields a b
  | _, _ => false

/-- Pointwise equality of field lists. -/
def eqFields : List (String × Value) → List (String × Value) → Bool
  | [], [] => true
  | (k1, v1) :: r1, (k2, v2) :: r2 => k1 == k2 && eqValue v1 v2 && eqFields r1 r2
  | _, _ => false
end

/-- Does the stored document match the identity filter value v. -/
def docIdMatches (d : Doc) (v : Value) : Bool :=
  match lookupAssoc d "_id" with
  | some w => eqValue w v
  | none => false

/-- Driver find_one with an identity filter: first matching stored record. -/
def findDocById : List Doc → Value → Option Doc
  | [], _ => none
  | d :: rest, v => if docIdMatches d v then some d else findDocById rest v

/-- Driver replace_one: replace the first record matching the identity. -/
def replaceOneById : List Doc → Value → Doc → List Doc
  | [], _, _ => []
  | d :: rest, v, nd =>
    if docIdMatches d v then nd :: rest else d :: replaceOneById rest v nd

/-- Driver update_one with an unset-field update keyed by the identity:
remove the field from the first matching record. -/
def unsetFirstById : List Doc → Value → String → List Doc
  | [], _, _ => []
  | d :: rest, v, f =>
    if docIdMatches d v then removeField d f :: rest else d :: unsetFirstById rest v f

/-- The library exceptions of mm_exceptions.py, together with the Python
runtime errors that the covered code paths can raise. -/
inductive MErr where
  | connectionError
  | collectionError
  | fieldError
  | invalidDocumentError
  | typeError
  | attributeError
  | driverError
deriving DecidableEq, Repr

/-- One driver call issued across the pymongo boundary.  The trace of these
calls records which operations a code path performed. -/
inductive DriverOp where
  | insertOne (coll : String) (doc : Doc)
  | replaceOne (coll : String) (idFilter : Value) (doc : Doc)
  | unsetOne (coll : String) (idFilter : Value) (field : String)
  | counterInc (coll seqName : String) (inc : Int)

/-- The selected database: named collections holding stored records, the
next client-generated ObjectId, and the trace of driver calls issued. -/
structure DB where
  colls : List (String × List Doc)
  nextOid : Nat
  ops : List DriverOp

/-- Apply an in-place modification to an existing collection and log the
driver call.  A plain update or replace on a collection that does not exist
matches nothing and does not create the collection. -/
def modifyColl (db : DB) (c : String) (f : List Doc → List Doc) (op : DriverOp) : DB :=
  match lookupAssoc db.colls c with
  | some docs => { db with colls := setField db.colls c (f docs), ops := db.ops ++ [op] }
  | none => { db with ops := db.ops ++ [op] }

/-- Driver insert_one: the client generates an ObjectId, places it in the
passed dict under the identity key, and appends the record to the collection
(creating the collection when absent).  Returns the stored record, whose
identity field carries the generated id, together with the new state. -/
def insertOne (db : DB) (c : String) (d : Doc) : Doc × DB :=
  let stored := setField d "_id" (Value.oid db.nextOid)
  let docs := (lookupAssoc db.colls c).getD []
  (stored,
   { colls := setField db.colls c (docs ++ [stored]),
     nextOid := db.nextOid + 1,
     ops := db.ops ++ [DriverOp.insertOne c stored] })

/-- The isinstance(args[0], dict) test of Document.__init__, together with
the dict content then used.  A plain dict carries its own fields.  A
Document instance is a dict subclass, so the test succeeds on it, but
Document keeps its fields in the instance attribute mapping and never in the
underlying dict storage, so copying it as a dict yields no fields. -/
def asDictArg : Value → Option Doc
  | .dict fs => some fs
  | .docInst _ => some []
  | _ => none

/-- Flattening applied to each value of the construction input: an embedded
Document instance is replaced by its raw field mapping, one level only. -/
def flattenVal : Value → Value
  | .docInst fs => .dict fs
  | v => v

/-- Document.__init__ acting on an instance whose attribute mapping already
holds self0 (self0 is empty for a plain construction; the model decorator
calls it on a partially filled instance).  It defaults the identity field to
null when the keyword mapping does not supply one, selects the dict argument
if the first positional argument is dict-like and otherwise the keyword
mapping, flattens embedded Document values one level, and merges the result
into the instance. -/
def docInitOn (self0 : Doc) (args : List Value) (kwargs : Doc) : Doc :=
  let s1 := if (lookupAssoc kwargs "_id").isNone then setField self0 "_id" Value.null else self0
  let d :=
    match args with
    | a :: _ =>
      match asDictArg a with
      | some fs => fs
      | none => kwargs
    | [] => kwargs
  updateFields s1 (d.map fun kv => (kv.1, flattenVal kv.2))

/-- Document.__init__ on a fresh instance. -/
def docInit (args : List Value) (kwargs : Doc) : Doc :=
  docInitOn [] args kwargs

/-- Document._get_auto_id: requires a collection named counters, then issues
find_one_and_update on the record whose identity is the sequence name, with
an increment update, upsert, and return of the updated record; the result is
the sequence_value of the updated record.  When no record matches, upsert
creates one holding the increment; when the record lacks the field, the
increment update creates it; an increment on a non-numeric field is a
driver-side failure.  Raising leaves the state unchanged, so the unchanged
branches return the error alone. -/
def getAutoId (db : DB) (name : String) (inc : Int) : Except MErr (Int × DB) :=
  match lookupAssoc db.colls "counters" with
  | none => .error .collectionError
  | some docs =>
    let logged := fun (newDocs : List Doc) (v : Int) =>
      Except.ok (v,
        { db with colls := setField db.colls "counters" newDocs,
                  ops := db.ops ++ [DriverOp.counterInc "counters" name inc] })
    match findDocById docs (Value.str name) with
    | none =>
      logged (docs ++ [[("_id", Value.str name), ("sequence_value", Value.int inc)]]) inc
    | some d =>
      match lookupAssoc d "sequence_value" with
      | some (Value.int n) =>
        logged (replaceOneById docs (Value.str name) (setField d "sequence_value" (Value.int (n + inc)))) (n + inc)
      | none =>
        logged (replaceOneById docs (Value.str name) (setField d "sequence_value" (Value.int inc))) inc
      | some _ => .error .driverError

/-- The result value of Document.save: the instance itself after an insert,
or the driver update result of a replace (asymmetric return). -/
inductive SaveRes where
  | savedSelf
  | updateResult (matched : Nat)
deriving DecidableEq, Repr

/-- The insert-or-replace core of Document.save, after the auto-field block:
fails when the class has no bound collection; with a null identity it
removes the identity field, inserts, and the instance picks up the generated
id; with a non-null identity it issues a replace keyed by that identity and
leaves the instance untouched; an instance lacking the identity attribute
raises AttributeError on the identity access. -/
def saveCore (cls : Option String) (self : Doc) (db : DB) : Doc × DB × Except MErr SaveRes :=
  match cls with
  | none => (self, db, .error .collectionError)
  | some c =>
    match lookupAssoc self "_id" with
    | some Value.null =>
      let (stored, db1) := insertOne db c (removeField self "_id")
      (stored, db1, .ok .savedSelf)
    | some v =>
      let matched := if (findDocById ((lookupAssoc db.colls c).getD []) v).isSome then 1 else 0
      (self, modifyColl db c (fun docs => replaceOneById docs v self) (DriverOp.replaceOne c v self),
       .ok (.updateResult matched))
    | none => (self, db, .error .attributeError)

/-- Document.save.  When auto_field is given without auto_key it fails at
once; otherwise the auto-field block first consumes the next counter value
(Document._get_auto_id with its default increment of 2) and writes it into
the instance, and only then does the insert-or-replace core run, so a
failure there leaves both mutations in place. -/
def save (cls : Option String) (self : Doc) (db : DB)
    (autoField autoKey : Option String) : Doc × DB × Except MErr SaveRes :=
  match autoField with
  | none => saveCore cls self db
  | some af =>
    match autoKey with
    | none => (self, db, .error .fieldError)
    | some ak =>
      match getAutoId db ak 2 with
      | .error e => (self, db, .error e)
      | .ok (v, db1) => saveCore cls (setField self af (Value.int v)) db1

/-- Document.delete_field: when the field is present on the instance it
issues an unset-field update keyed by the instance identity and returns
None, leaving the instance attribute mapping untouched; otherwise it raises
FieldError without any driver call.  An unbound collection makes the method
lookup on None fail with AttributeError, as does a missing identity
attribute. -/
def delete_field (cls : Option String) (self : Doc) (db : DB) (field : String) :
    Doc × DB × Except MErr Unit :=
  if (lookupAssoc self field).isSome then
    match cls with
    | none => (self, db, .error .attributeError)
    | some c =>
      match lookupAssoc self "_id" with
      | none => (self, db, .error .attributeError)
      | some idv =>
        (self, modifyColl db c (fun docs => unsetFirstById docs idv field)
          (DriverOp.unsetOne c idv field), .ok ())
  else
    (self, db, .error .fieldError)

/-- One hexadecimal digit, as bson accepts them. -/
def isHexDig (c : Char) : Bool :=
  c.isDigit || ('a' ≤ c && c ≤ 'f') || ('A' ≤ c && c ≤ 'F')

/-- The numeric value of one hexadecimal digit. -/
def hexDigVal (c : Char) : Nat :=
  if c.isDigit then c.toNat - Char.toNat '0'
  else if 'a' ≤ c && c ≤ 'f' then c.toNat - Char.toNat 'a' + 10
  else c.toNat - Char.toNat 'A' + 10

/-- Modelled boundary of the external bson library: ObjectId(s) accepts a
string exactly when it is 24 hexadecimal characters, and otherwise raises
InvalidId. -/
def isValidObjectId (s : String) : Bool :=
  s.data.length == 24 && s.data.all isHexDig

/-- The numeric identity an accepted hexadecimal string denotes. -/
def hexValue (s : String) : Nat :=
  s.data.foldl (fun acc c => acc * 16 + hexDigVal c) 0

/-- Document.get_by_id: builds an ObjectId from the string, returning None
when that raises InvalidId; otherwise issues find_one on the identity and
passes the driver result, found record or None, to the class constructor.
A None argument is not dict-like, so the constructor falls back to the
empty keyword mapping. -/
def get_by_id (docs : List Doc) (idStr : String) : Option Doc :=
  if isValidObjectId idStr then
    match findDocById docs (Value.oid (hexValue idStr)) with
    | some d => some (docInit [Value.dict d] [])
    | none => some (docInit [Value.null] [])
  else
    none

/-- Outcome of init_db: success stores the selected database; exhausting the
retry loop raises MongoDBConnectionError; a retry count of zero skips the
loop entirely, so the final assignment reads the never-bound local client
variable and raises NameError instead. -/
inductive InitResult where
  | ok
  | connectionError
  | nameError
deriving DecidableEq, Repr

/-- The retry loop of init_db over the remaining iteration count.  The
oracle fails tells, per attempt index, whether creating the client and
probing server_info raises ServerSelectionTimeoutError.  The result carries
the outcome, the number of connection attempts made, and the list of sleep
durations incurred, each being the retry delay raised to the attempt index. -/
def initLoop (fails : Nat → Bool) (delay : Int) : Nat → Nat → InitResult × Nat × List Int
  | _, 0 => (.nameError, 0, [])
  | i, rem + 1 =>
    if fails i then
      if rem = 0 then (.connectionError, 1, [])
      else
        let r := initLoop fails delay (i + 1) rem
        (r.1, r.2.1 + 1, delay ^ i :: r.2.2)
    else (.ok, 1, [])

/-- init_db with its attempt outcomes abstracted into the oracle: iterate
the connection attempt at most retries times, sleeping delay to the power of
the attempt index between consecutive attempts, raising on exhaustion, and
storing the database on the first success.  A non-positive retry count is
modelled by zero, for which the Python loop body never runs. -/
def init_db (fails : Nat → Bool) (retries : Nat) (delay : Int) : InitResult × Nat × List Int :=
  initLoop fails delay 0 retries

/-- The annotated field types the model layer supports, standing for the
Python types usable as annotations on model classes. -/
inductive Ty where
  | tInt
  | tStr
  | tBool
deriving DecidableEq, Repr

/-- Calling the annotated type with no arguments: the zero value Python
gives for int, str and bool. -/
def tyZero : Ty → Value
  | .tInt => .int 0
  | .tStr => .str ""
  | .tBool => .bool false

/-- Python isinstance against an annotated type; bool is a subclass of int. -/
def isInstanceOf : Value → Ty → Bool
  | .int _, .tInt => true
  | .bool _, .tInt => true
  | .str _, .tStr => true
  | .bool _, .tBool => true
  | _, _ => false

/-- Value selection for one annotated field in the model decorator
constructor: from the keyword mapping (popping the entry), else from the
next positional argument, else the annotated type called with no
arguments.  Returns the value and the leftover positional and keyword
arguments. -/
def pickValue (kwargs : Doc) (args : List Value) (name : String) (ty : Ty) :
    Value × List Value × Doc :=
  match lookupAssoc kwargs name with
  | some v => (v, args, removeField kwargs name)
  | none =>
    match args with
    | a :: more => (a, more, kwargs)
    | [] => (tyZero ty, [], kwargs)

/-- The per-annotation loop of the model decorator constructor: each
annotated field takes its value as pickValue selects it; a value failing
isinstance raises TypeError.  Returns the filled attribute mapping and the
leftover positional and keyword arguments. -/
def modelInitLoop : List (String × Ty) → List Value → Doc → Doc →
    Except MErr (Doc × List Value × Doc)
  | [], args, kwargs, acc => .ok (acc, args, kwargs)
  | (name, ty) :: rest, args, kwargs, acc =>
    if isInstanceOf (pickValue kwargs args name ty).1 ty then
      modelInitLoop rest (pickValue kwargs args name ty).2.1 (pickValue kwargs args name ty).2.2
        (setField acc name (pickValue kwargs args name ty).1)
    else
      .error .typeError

/-- NewClass.__init__ from the model decorator: run the annotation loop,
then set the identity attribute to null, then delegate the leftover
arguments to Document.__init__ on the partially filled instance.  The
closing statements rebind the class collection and print an empty line,
neither of which touches the instance. -/
def modelInit (annots : List (String × Ty)) (args : List Value) (kwargs : Doc) :
    Except MErr Doc :=
  match modelInitLoop annots args kwargs [] with
  | .error e => .error e
  | .ok (acc, args1, kwargs1) =>
    .ok (docInitOn (setField acc "_id" Value.null) args1 kwargs1)

/-- NewClass.__setattr__ from the model decorator: hasattr(self, name) holds
when the attribute is in the instance mapping or declared on the class;
otherwise the assignment raises AttributeError. -/
def modelSetattr (classAttrs : List String) (self : Doc) (name : String) (v : Value) :
    Except MErr Doc :=
  if (lookupAssoc self name).isSome || classAttrs.contains name then
    .ok (setField self name v)
  else
    .error .attributeError

/-- Attribute assignment on instances of classes produced by
register_model.  add_base_class builds the class with type over the bases
Document, cls and object, and none of these overrides __setattr__, so the
default object assignment into the instance attribute mapping applies.
register_model assigns __slots__ only after the class object already
exists, which has no effect on instance layout, and the Document base
contributes an instance attribute mapping in any case, so this path imposes
no declared-attribute restriction. -/
def registeredSetattr (self : Doc) (name : String) (v : Value) : Except MErr Doc :=
  .ok (setField self name v)

/-- Well-formed counter state for one sequence name: the counter record for
the name, when present, either lacks sequence_value or holds an integer, the
shape the counters collection is documented to contain. -/
def counterWf (cdocs : List Doc) (name : String) : Prop :=
  match findDocById cdocs (Value.str name) with
  | none => True
  | some d =>
    lookupAssoc d "sequence_value" = none ∨
      ∃ n : Int, lookupAssoc d "sequence_value" = some (Value.int n)

/-- The sequence value currently stored for the name, zero when the counter
record or its field is absent, matching the increment-from-missing semantics
of the driver update. -/
def counterCurrent (cdocs : List Doc) (name : String) : Int :=
  match findDocById cdocs (Value.str name) with
  | some d =>
    match lookupAssoc d "sequence_value" with
    | some (Value.int n) => n
    | _ => 0
  | none => 0

/-! ### Lemmas about the dict and collection primitives -/

theorem lookupAssoc_setField_self {α : Type} (l : List (String × α)) (k : String) (v : α) :
    lookupAssoc (setField l k v) k = some v := by
  induction l with
  | nil => simp [setField, lookupAssoc]
  | cons kv rest ih =>
    obtain ⟨k1, v1⟩ := kv
    by_cases h : k1 = k
    · simp [setField, h, lookupAssoc]
    · simp [setField, h, lookupAssoc, ih]

theorem lookupAssoc_setField_ne {α : Type} (l : List (String × α)) {k k1 : String} (v : α)
    (h : k1 ≠ k) : lookupAssoc (setField l k v) k1 = lookupAssoc l k1 := by
  induction l with
  | nil => simp [setField, lookupAssoc, Ne.symm h]
  | cons kv rest ih =>
    obtain ⟨k2, v2⟩ := kv
    by_cases h2 : k2 = k
    · subst h2
      simp [setField, lookupAssoc, Ne.symm h]
    · by_cases h3 : k2 = k1 <;> simp [setField, lookupAssoc, h2, h3, h, ih]

theorem lookupAssoc_removeField_ne {α : Type} (l : List (String × α)) {k k1 : String}
    (h : k1 ≠ k) : lookupAssoc (removeField l k) k1 = lookupAssoc l k1 := by
  induction l with
  | nil => simp [removeField]
  | cons kv rest ih =>
    obtain ⟨k2, v2⟩ := kv
    by_cases h2 : k2 = k
    · subst h2
      simp [removeField, lookupAssoc, Ne.symm h]
    · by_cases h3 : k2 = k1 <;> simp [removeField, lookupAssoc, h2, h3, h, ih]

theorem lookupAssoc_eq_none_of_not_mem {α : Type} (l : List (String × α)) (k : String)
    (h : k ∉ l.map Prod.fst) : lookupAssoc l k = none := by
  induction l with
  | nil => rfl
  | cons kv rest ih =>
    simp only [List.map_cons, List.mem_cons] at h
    push_neg at h
    obtain ⟨k2, v2⟩ := kv
    simp only [lookupAssoc]
    rw [if_neg (fun hc => h.1 hc.symm), ih h.2]

theorem lookupAssoc_removeField_none {α : Type} (l : List (String × α)) (k k1 : String)
    (h : lookupAssoc l k1 = none) : lookupAssoc (removeField l k) k1 = none := by
  induction l with
  | nil => simpa [removeField] using h
  | cons kv rest ih =>
    obtain ⟨k2, v2⟩ := kv
    simp only [lookupAssoc] at h
    by_cases h3 : k2 = k1
    · simp [h3] at h
    · rw [if_neg h3] at h
      by_cases h2 : k2 = k
      · simpa [removeField, h2] using h
      · simp [removeField, h2, lookupAssoc, h3, ih h]

theorem lookupAssoc_removeField_self {α : Type} (l : List (String × α)) (k : String)
    (h : (l.map Prod.fst).Nodup) : lookupAssoc (removeField l k) k = none := by
  induction l with
  | nil => rfl
  | cons kv rest ih =>
    obtain ⟨k2, v2⟩ := kv
    simp only [List.map_cons, List.nodup_cons] at h
    by_cases h2 : k2 = k
    · subst h2
      simp only [removeField, if_pos rfl]
      exact lookupAssoc_eq_none_of_not_mem rest k2 h.1
    · simp [removeField, h2, lookupAssoc, ih h.2]

theorem updateFields_cons {α : Type} (base : List (String × α)) (kv : String × α)
    (d : List (String × α)) :
    updateFields base (kv :: d) = updateFields (setField base kv.1 kv.2) d := rfl

theorem lookupAssoc_updateFields_none {α : Type} (d : List (String × α)) (k : String)
    (h : lookupAssoc d k = none) :
    ∀ base : List (String × α), lookupAssoc (updateFields base d) k = lookupAssoc base k := by
  induction d with
  | nil => intro base; rfl
  | cons kv rest ih =>
    intro base
    obtain ⟨k1, v1⟩ := kv
    simp only [lookupAssoc] at h
    by_cases h1 : k1 = k
    · simp [h1] at h
    · rw [if_neg h1] at h
      rw [updateFields_cons, ih h, lookupAssoc_setField_ne _ _ (fun hc => h1 hc.symm)]

theorem lookupAssoc_updateFields_some {α : Type} (d : List (String × α)) (k : String) (v : α)
    (hnd : (d.map Prod.fst).Nodup) (h : lookupAssoc d k = some v) :
    ∀ base : List (String × α), lookupAssoc (updateFields base d) k = some v := by
  induction d with
  | nil => simp [lookupAssoc] at h
  | cons kv rest ih =>
    intro base
    obtain ⟨k1, v1⟩ := kv
    simp only [List.map_cons, List.nodup_cons] at hnd
    simp only [lookupAssoc] at h
    by_cases h1 : k1 = k
    · subst h1
      rw [if_pos rfl] at h
      rw [updateFields_cons]
      rw [lookupAssoc_updateFields_none rest k1 (lookupAssoc_eq_none_of_not_mem rest k1 hnd.1)]
      simpa [lookupAssoc_setField_self] using h
    · rw [if_neg h1] at h
      rw [updateFields_cons]
      exact ih hnd.2 h _

theorem lookupAssoc_map_flatten (d : Doc) (k : String) :
    lookupAssoc (d.map fun kv => (kv.1, flattenVal kv.2)) k =
      (lookupAssoc d k).map flattenVal := by
  induction d with
  | nil => rfl
  | cons kv rest ih =>
    obtain ⟨k1, v1⟩ := kv
    by_cases h : k1 = k <;> simp [lookupAssoc, h, ih]

theorem findDocById_append_none (docs rest : List Doc) (v : Value)
    (h : findDocById docs v = none) :
    findDocById (docs ++ rest) v = findDocById rest v := by
  induction docs with
  | nil => rfl
  | cons d more ih =>
    simp only [findDocById] at h
    by_cases hm : docIdMatches d v
    · simp [hm] at h
    · rw [if_neg hm] at h
      simp [findDocById, hm, ih h]

theorem findDocById_replaceOneById (docs : List Doc) (v : Value) (d nd : Doc)
    (h : findDocById docs v = some d) (hm : docIdMatches nd v = true) :
    findDocById (replaceOneById docs v nd) v = some nd := by
  induction docs with
  | nil => simp [findDocById] at h
  | cons d1 more ih =>
    simp only [findDocById] at h
    by_cases h1 : docIdMatches d1 v
    · simp [replaceOneById, h1, findDocById, hm]
    · rw [if_neg h1] at h
      simp [replaceOneById, h1, findDocById, ih h]

theorem findDocById_unsetFirstById (docs : List Doc) (v : Value) (d : Doc) (f : String)
    (h : findDocById docs v = some d) (hm : docIdMatches (removeField d f) v = true) :
    findDocById (unsetFirstById docs v f) v = some (removeField d f) := by
  induction docs with
  | nil => simp [findDocById] at h
  | cons d1 more ih =>
    simp only [findDocById] at h
    by_cases h1 : docIdMatches d1 v
    · rw [if_pos h1] at h
      obtain rfl : d1 = d := Option.some.inj h
      simp [unsetFirstById, h1, findDocById, hm]
    · rw [if_neg h1] at h
      simp [unsetFirstById, h1, findDocById, ih h]

theorem docIdMatches_setField_ne (d : Doc) (f : String) (w : Value) (v : Value)
    (hf : f ≠ "_id") : docIdMatches (setField d f w) v = docIdMatches d v := by
  unfold docIdMatches
  rw [lookupAssoc_setField_ne d w (fun hc => hf hc.symm)]

theorem docIdMatches_removeField_ne (d : Doc) (f : String) (v : Value)
    (hf : f ≠ "_id") : docIdMatches (removeField d f) v = docIdMatches d v := by
  unfold docIdMatches
  rw [lookupAssoc_removeField_ne d (fun hc => hf hc.symm)]

theorem tyZero_isInstanceOf (ty : Ty) : isInstanceOf (tyZero ty) ty = true := by
  cases ty <;> rfl

theorem findDocById_matches (docs : List Doc) (v : Value) (d : Doc)
    (h : findDocById docs v = some d) : docIdMatches d v = true := by
  induction docs with
  | nil => simp [findDocById] at h
  | cons d1 more ih =>
    simp only [findDocById] at h
    by_cases h1 : docIdMatches d1 v
    · rw [if_pos h1] at h
      obtain rfl : d1 = d := Option.some.inj h
      exact h1
    · rw [if_neg h1] at h
      exact ih h

/-- Behaviour of one _get_auto_id call against a present, well-formed
counters collection: it succeeds with the previous sequence value plus the
increment, the updated counter record is persisted with exactly that value,
and one counter driver call is logged. -/
theorem getAutoId_spec (db : DB) (name : String) (inc : Int) (cdocs : List Doc)
    (hc : lookupAssoc db.colls "counters" = some cdocs) (hwf : counterWf cdocs name) :
    ∃ cdocs1 db1 d1,
      getAutoId db name inc = .ok (counterCurrent cdocs name + inc, db1) ∧
      lookupAssoc db1.colls "counters" = some cdocs1 ∧
      findDocById cdocs1 (Value.str name) = some d1 ∧
      lookupAssoc d1 "sequence_value" = some (Value.int (counterCurrent cdocs name + inc)) ∧
      db1.ops = db.ops ++ [DriverOp.counterInc "counters" name inc] := by
  cases hfind : findDocById cdocs (Value.str name) with
  | none =>
    refine ⟨cdocs ++ [[("_id", Value.str name), ("sequence_value", Value.int inc)]],
      { db with
          colls := setField db.colls "counters"
            (cdocs ++ [[("_id", Value.str name), ("sequence_value", Value.int inc)]]),
          ops := db.ops ++ [DriverOp.counterInc "counters" name inc] },
      [("_id", Value.str name), ("sequence_value", Value.int inc)], ?_, ?_, ?_, ?_, ?_⟩
    · simp [getAutoId, hc, hfind, counterCurrent]
    · exact lookupAssoc_setField_self _ _ _
    · rw [findDocById_append_none _ _ _ hfind]
      simp [findDocById, docIdMatches, lookupAssoc, eqValue]
    · simp [lookupAssoc, counterCurrent, hfind]
    · rfl
  | some d =>
    have hm : docIdMatches d (Value.str name) = true := findDocById_matches _ _ _ hfind
    unfold counterWf at hwf
    rw [hfind] at hwf
    have hsvne : ("sequence_value" : String) ≠ "_id" := by decide
    rcases hwf with hsv | ⟨n, hsv⟩
    · refine ⟨replaceOneById cdocs (Value.str name) (setField d "sequence_value" (Value.int inc)),
        { db with
            colls := setField db.colls "counters"
              (replaceOneById cdocs (Value.str name) (setField d "sequence_value" (Value.int inc))),
            ops := db.ops ++ [DriverOp.counterInc "counters" name inc] },
        setField d "sequence_value" (Value.int inc), ?_, ?_, ?_, ?_, ?_⟩
      · simp [getAutoId, hc, hfind, hsv, counterCurrent]
      · exact lookupAssoc_setField_self _ _ _
      · exact findDocById_replaceOneById _ _ _ _ hfind
          ((docIdMatches_setField_ne d _ _ _ hsvne).trans hm)
      · rw [lookupAssoc_setField_self]
        simp [counterCurrent, hfind, hsv]
      · rfl
    · refine ⟨replaceOneById cdocs (Value.str name) (setField d "sequence_value" (Value.int (n + inc))),
        { db with
            colls := setField db.colls "counters"
              (replaceOneById cdocs (Value.str name) (setField d "sequence_value" (Value.int (n + inc)))),
            ops := db.ops ++ [DriverOp.counterInc "counters" name inc] },
        setField d "sequence_value" (Value.int (n + inc)), ?_, ?_, ?_, ?_, ?_⟩
      · simp [getAutoId, hc, hfind, hsv, counterCurrent]
      · exact lookupAssoc_setField_self _ _ _
      · exact findDocById_replaceOneById _ _ _ _ hfind
          ((docIdMatches_setField_ne d _ _ _ hsvne).trans hm)
      · rw [lookupAssoc_setField_self]
        simp [counterCurrent, hfind, hsv]
      · rfl

theorem mapFlatten_keys (d : Doc) :
    ((d.map fun kv => (kv.1, flattenVal kv.2)).map Prod.fst) = d.map Prod.fst := by
  induction d with
  | nil => rfl
  | cons kv rest ih => simp [ih]

theorem docInit_dict_eq (d : Doc) :
    docInit [Value.dict d] [] =
      updateFields [("_id", Value.null)] (d.map fun kv => (kv.1, flattenVal kv.2)) := rfl

theorem docInit_kwargs_eq_of_no_id (d : Doc) (h : lookupAssoc d "_id" = none) :
    docInit [] d = updateFields [("_id", Value.null)] (d.map fun kv => (kv.1, flattenVal kv.2)) := by
  simp [docInit, docInitOn, h, setField]

theorem docInit_kwargs_eq_of_id (d : Doc) {w : Value} (h : lookupAssoc d "_id" = some w) :
    docInit [] d = updateFields [] (d.map fun kv => (kv.1, flattenVal kv.2)) := by
  simp [docInit, docInitOn, h]

/-! ### Claim theorems -/

/-- C1: a freshly constructed document with no identity supplied carries a
null identity; the first successful save inserts and leaves the instance
with the non-null generated identity; a save on an instance whose identity
is non-null issues a replace keyed by that identity and no insert. -/
theorem C1_identity_lifecycle :
    (∀ d : Doc, lookupAssoc d "_id" = none →
      lookupAssoc (docInit [Value.dict d] []) "_id" = some Value.null ∧
      lookupAssoc (docInit [] d) "_id" = some Value.null) ∧
    (∀ (c : String) (self : Doc) (db : DB),
      lookupAssoc self "_id" = some Value.null →
      ∃ self1 db1,
        save (some c) self db none none = (self1, db1, .ok .savedSelf) ∧
        lookupAssoc self1 "_id" = some (Value.oid db.nextOid) ∧
        Value.oid db.nextOid ≠ Value.null ∧
        db1.ops = db.ops ++ [DriverOp.insertOne c self1]) ∧
    (∀ (c : String) (self : Doc) (db : DB) (v : Value),
      lookupAssoc self "_id" = some v → v ≠ Value.null →
      ∃ db1 m,
        save (some c) self db none none = (self, db1, .ok (.updateResult m)) ∧
        db1.ops = db.ops ++ [DriverOp.replaceOne c v self]) := by
  refine ⟨?_, ?_, ?_⟩
  · intro d h
    have hmap : lookupAssoc (d.map fun kv => (kv.1, flattenVal kv.2)) "_id" = none := by
      rw [lookupAssoc_map_flatten, h]; rfl
    constructor
    · rw [docInit_dict_eq, lookupAssoc_updateFields_none _ _ hmap]; rfl
    · rw [docInit_kwargs_eq_of_no_id d h, lookupAssoc_updateFields_none _ _ hmap]; rfl
  · intro c self db h
    refine ⟨setField (removeField self "_id") "_id" (Value.oid db.nextOid),
      { colls := setField db.colls c
          (((lookupAssoc db.colls c).getD []) ++
            [setField (removeField self "_id") "_id" (Value.oid db.nextOid)]),
        nextOid := db.nextOid + 1,
        ops := db.ops ++ [DriverOp.insertOne c
          (setField (removeField self "_id") "_id" (Value.oid db.nextOid))] },
      ?_, ?_, ?_, ?_⟩
    · simp [save, saveCore, h, insertOne]
    · exact lookupAssoc_setField_self _ _ _
    · intro hc
      exact Value.noConfusion hc
    · rfl
  · intro c self db v h hv
    refine ⟨modifyColl db c (fun docs => replaceOneById docs v self) (DriverOp.replaceOne c v self),
      (if (findDocById ((lookupAssoc db.colls c).getD []) v).isSome then 1 else 0), ?_, ?_⟩
    · cases v with
      | null => exact absurd rfl hv
      | int n => simp [save, saveCore, h]
      | str s => simp [save, saveCore, h]
      | bool b => simp [save, saveCore, h]
      | oid n => simp [save, saveCore, h]
      | dict fs => simp [save, saveCore, h]
      | docInst fs => simp [save, saveCore, h]
    · unfold modifyColl
      cases lookupAssoc db.colls c <;> rfl

/-- Witness for C1 at concrete inputs: fresh construction has a null
identity, the first save inserts and yields identity oid 0, and a save on an
already persisted instance issues a replace keyed by its identity. -/
theorem C1_identity_lifecycle_witness :
    (lookupAssoc (docInit [] [("x", Value.int 1)]) "_id" = some Value.null) ∧
    (∃ self1 db1,
      save (some "users") [("_id", Value.null), ("x", Value.int 1)]
          { colls := [("users", [])], nextOid := 0, ops := [] } none none =
        (self1, db1, .ok .savedSelf) ∧
      lookupAssoc self1 "_id" = some (Value.oid 0) ∧
      Value.oid 0 ≠ Value.null ∧
      db1.ops = [] ++ [DriverOp.insertOne "users" self1]) ∧
    (∃ db1 m,
      save (some "users") [("_id", Value.oid 3), ("x", Value.int 2)]
          { colls := [("users", [[("_id", Value.oid 3), ("x", Value.int 1)]])],
            nextOid := 4, ops := [] } none none =
        ([("_id", Value.oid 3), ("x", Value.int 2)], db1, .ok (.updateResult m)) ∧
      db1.ops = [] ++ [DriverOp.replaceOne "users" (Value.oid 3)
        [("_id", Value.oid 3), ("x", Value.int 2)]]) :=
  ⟨(C1_identity_lifecycle.1 [("x", Value.int 1)] rfl).2,
   C1_identity_lifecycle.2.1 "users" [("_id", Value.null), ("x", Value.int 1)]
     { colls := [("users", [])], nextOid := 0, ops := [] } rfl,
   C1_identity_lifecycle.2.2 "users" [("_id", Value.oid 3), ("x", Value.int 2)]
     { colls := [("users", [[("_id", Value.oid 3), ("x", Value.int 1)]])],
       nextOid := 4, ops := [] } (Value.oid 3) rfl (fun hc => Value.noConfusion hc)⟩

/-- C7: construction from a single dict argument or from keyword fields
carries every input binding over with embedded Document values replaced by
their raw field mapping, one level only, and always yields an instance with
an identity field, null when the input supplied none. -/
theorem C7_construction (d : Doc) (hnd : (d.map Prod.fst).Nodup) (r : Doc)
    (hr : r = docInit [Value.dict d] [] ∨ r = docInit [] d) :
    (∀ (k : String) (v : Value), lookupAssoc d k = some v →
      lookupAssoc r k = some (flattenVal v)) ∧
    (∀ (k : String) (fs : List (String × Value)),
      lookupAssoc d k = some (Value.docInst fs) → lookupAssoc r k = some (Value.dict fs)) ∧
    (lookupAssoc d "_id" = none → lookupAssoc r "_id" = some Value.null) ∧
    (lookupAssoc r "_id").isSome = true := by
  have hmnd : ((d.map fun kv => (kv.1, flattenVal kv.2)).map Prod.fst).Nodup := by
    rw [mapFlatten_keys]; exact hnd
  have hsome : ∀ (k : String) (v : Value), lookupAssoc d k = some v →
      lookupAssoc r k = some (flattenVal v) := by
    intro k v hk
    have hmap : lookupAssoc (d.map fun kv => (kv.1, flattenVal kv.2)) k =
        some (flattenVal v) := by
      rw [lookupAssoc_map_flatten, hk]; rfl
    rcases hr with rfl | rfl
    · rw [docInit_dict_eq]
      exact lookupAssoc_updateFields_some _ _ _ hmnd hmap _
    · cases hid : lookupAssoc d "_id" with
      | none =>
        rw [docInit_kwargs_eq_of_no_id d hid]
        exact lookupAssoc_updateFields_some _ _ _ hmnd hmap _
      | some w =>
        rw [docInit_kwargs_eq_of_id d hid]
        exact lookupAssoc_updateFields_some _ _ _ hmnd hmap _
  have hnone : lookupAssoc d "_id" = none → lookupAssoc r "_id" = some Value.null := by
    intro hid
    have hmap : lookupAssoc (d.map fun kv => (kv.1, flattenVal kv.2)) "_id" = none := by
      rw [lookupAssoc_map_flatten, hid]; rfl
    rcases hr with rfl | rfl
    · rw [docInit_dict_eq, lookupAssoc_updateFields_none _ _ hmap]; rfl
    · rw [docInit_kwargs_eq_of_no_id d hid, lookupAssoc_updateFields_none _ _ hmap]; rfl
  refine ⟨hsome, ?_, hnone, ?_⟩
  · intro k fs hk
    exact hsome k (Value.docInst fs) hk
  · cases hid : lookupAssoc d "_id" with
    | none => rw [hnone hid]; rfl
    | some w => rw [hsome "_id" w hid]; rfl

/-- Witness for C7: a dict input with an embedded Document value that
itself embeds another Document is flattened exactly one level, other values
pass through, and the identity defaults to null. -/
theorem C7_construction_witness :
    ([(("a" : String), Value.docInst [("b", Value.docInst [("c", Value.int 1)])]),
      ("y", Value.int 7)].map Prod.fst).Nodup ∧
    (lookupAssoc (docInit [Value.dict [("a", Value.docInst [("b", Value.docInst [("c", Value.int 1)])]),
        ("y", Value.int 7)]] []) "a" =
      some (Value.dict [("b", Value.docInst [("c", Value.int 1)])])) ∧
    (lookupAssoc (docInit [Value.dict [("a", Value.docInst [("b", Value.docInst [("c", Value.int 1)])]),
        ("y", Value.int 7)]] []) "y" = some (Value.int 7)) ∧
    (lookupAssoc (docInit [Value.dict [("a", Value.docInst [("b", Value.docInst [("c", Value.int 1)])]),
        ("y", Value.int 7)]] []) "_id" = some Value.null) := by
  have h := C7_construction
    [("a", Value.docInst [("b", Value.docInst [("c", Value.int 1)])]), ("y", Value.int 7)]
    (by decide)
    (docInit [Value.dict [("a", Value.docInst [("b", Value.docInst [("c", Value.int 1)])]),
      ("y", Value.int 7)]] [])
    (Or.inl rfl)
  exact ⟨by decide, h.2.1 "a" _ rfl, h.1 "y" (Value.int 7) rfl, h.2.2.1 rfl⟩

/-- C6: _get_auto_id raises CollectionError when no counters collection
exists; against a present, well-formed counters collection two successive
calls with increment 2 return values differing by exactly 2, and after each
call the persisted counter record for the sequence holds the returned
value. -/
theorem C6_get_auto_id (db : DB) (name : String) :
    (lookupAssoc db.colls "counters" = none →
      getAutoId db name 2 = .error .collectionError) ∧
    (∀ cdocs : List Doc, lookupAssoc db.colls "counters" = some cdocs →
      counterWf cdocs name →
      ∃ v1 db1 v2 db2,
        getAutoId db name 2 = .ok (v1, db1) ∧
        getAutoId db1 name 2 = .ok (v2, db2) ∧
        v2 - v1 = 2 ∧
        (∃ d1, (lookupAssoc db1.colls "counters").bind
            (fun ds => findDocById ds (Value.str name)) = some d1 ∧
          lookupAssoc d1 "sequence_value" = some (Value.int v1)) ∧
        (∃ d2, (lookupAssoc db2.colls "counters").bind
            (fun ds => findDocById ds (Value.str name)) = some d2 ∧
          lookupAssoc d2 "sequence_value" = some (Value.int v2))) := by
  constructor
  · intro h
    simp [getAutoId, h]
  · intro cdocs hc hwf
    obtain ⟨cdocs1, db1, d1, heq1, hc1, hfind1, hsv1, hops1⟩ :=
      getAutoId_spec db name 2 cdocs hc hwf
    have hwf1 : counterWf cdocs1 name := by
      unfold counterWf
      rw [hfind1]
      exact Or.inr ⟨_, hsv1⟩
    obtain ⟨cdocs2, db2, d2, heq2, hc2, hfind2, hsv2, hops2⟩ :=
      getAutoId_spec db1 name 2 cdocs1 hc1 hwf1
    have hcur1 : counterCurrent cdocs1 name = counterCurrent cdocs name + 2 := by
      simp only [counterCurrent, hfind1, hsv1]
    refine ⟨counterCurrent cdocs name + 2, db1, counterCurrent cdocs1 name + 2, db2,
      heq1, heq2, by rw [hcur1]; ring, ?_, ?_⟩
    · exact ⟨d1, by rw [hc1]; simpa using hfind1, hsv1⟩
    · exact ⟨d2, by rw [hc2]; simpa using hfind2, hsv2⟩

/-- Witness for C6: the missing-counters case fails with CollectionError,
and two calls against a counter standing at 10 return 12 then 14, each
persisted. -/
theorem C6_get_auto_id_witness :
    (getAutoId ⟨[("users", [])], 0, []⟩ "seq" 2 = .error .collectionError) ∧
    (∃ v1 db1 v2 db2,
      getAutoId ⟨[("counters", [[("_id", Value.str "seq"), ("sequence_value", Value.int 10)]])], 0, []⟩
          "seq" 2 = .ok (v1, db1) ∧
      getAutoId db1 "seq" 2 = .ok (v2, db2) ∧
      v2 - v1 = 2 ∧
      (∃ d1, (lookupAssoc db1.colls "counters").bind
          (fun ds => findDocById ds (Value.str "seq")) = some d1 ∧
        lookupAssoc d1 "sequence_value" = some (Value.int v1)) ∧
      (∃ d2, (lookupAssoc db2.colls "counters").bind
          (fun ds => findDocById ds (Value.str "seq")) = some d2 ∧
        lookupAssoc d2 "sequence_value" = some (Value.int v2))) :=
  ⟨(C6_get_auto_id ⟨[("users", [])], 0, []⟩ "seq").1 rfl,
   (C6_get_auto_id ⟨[("counters", [[("_id", Value.str "seq"), ("sequence_value", Value.int 10)]])], 0, []⟩
      "seq").2 [[("_id", Value.str "seq"), ("sequence_value", Value.int 10)]] rfl
     (Or.inr ⟨10, rfl⟩)⟩

/-- C9: a save given autoField and autoKey on an instance whose class has
no bound collection fails with CollectionError, but only after the counter
has been atomically incremented and the consumed value written into the
instance autoField: neither mutation is rolled back. -/
theorem C9_save_autofield_not_atomic (self : Doc) (db : DB) (af ak : String)
    (cdocs : List Doc)
    (hc : lookupAssoc db.colls "counters" = some cdocs) (hwf : counterWf cdocs ak) :
    ∃ v db1,
      save none self db (some af) (some ak) =
        (setField self af (Value.int v), db1, .error .collectionError) ∧
      v = counterCurrent cdocs ak + 2 ∧
      (∃ d1, (lookupAssoc db1.colls "counters").bind
          (fun ds => findDocById ds (Value.str ak)) = some d1 ∧
        lookupAssoc d1 "sequence_value" = some (Value.int v)) ∧
      db1.ops = db.ops ++ [DriverOp.counterInc "counters" ak 2] := by
  obtain ⟨cdocs1, db1, d1, heq1, hc1, hfind1, hsv1, hops1⟩ :=
    getAutoId_spec db ak 2 cdocs hc hwf
  refine ⟨counterCurrent cdocs ak + 2, db1, ?_, rfl,
    ⟨d1, by rw [hc1]; simpa using hfind1, hsv1⟩, hops1⟩
  simp [save, heq1, saveCore]

/-- Witness for C9: with the counter at 10 and no bound collection, the
failing save leaves the instance holding autoField 12 and the counter
persisted at 12. -/
theorem C9_save_autofield_not_atomic_witness :
    ∃ v db1,
      save none [("_id", Value.null)]
          ⟨[("counters", [[("_id", Value.str "seq"), ("sequence_value", Value.int 10)]])], 0, []⟩
          (some "num") (some "seq") =
        (setField [("_id", Value.null)] "num" (Value.int v), db1, .error .collectionError) ∧
      v = counterCurrent [[("_id", Value.str "seq"), ("sequence_value", Value.int 10)]] "seq" + 2 ∧
      (∃ d1, (lookupAssoc db1.colls "counters").bind
          (fun ds => findDocById ds (Value.str "seq")) = some d1 ∧
        lookupAssoc d1 "sequence_value" = some (Value.int v)) ∧
      db1.ops = [] ++ [DriverOp.counterInc "counters" "seq" 2] :=
  C9_save_autofield_not_atomic [("_id", Value.null)]
    ⟨[("counters", [[("_id", Value.str "seq"), ("sequence_value", Value.int 10)]])], 0, []⟩
    "num" "seq" [[("_id", Value.str "seq"), ("sequence_value", Value.int 10)]] rfl
    (Or.inr ⟨10, rfl⟩)

/-- Counterexample to C3 as stated: on a present field, delete_field issues
the unset update and succeeds, yet the in-memory instance still carries the
field afterwards, so the field is not removed from the instance. -/
theorem C3_delete_field_counterexample :
    (delete_field (some "users") [("_id", Value.oid 1), ("x", Value.int 5)]
        ⟨[("users", [[("_id", Value.oid 1), ("x", Value.int 5)]])], 2, []⟩ "x").2.2 =
      .ok () ∧
    lookupAssoc
      (delete_field (some "users") [("_id", Value.oid 1), ("x", Value.int 5)]
        ⟨[("users", [[("_id", Value.oid 1), ("x", Value.int 5)]])], 2, []⟩ "x").1 "x" =
      some (Value.int 5) :=
  ⟨rfl, rfl⟩

/-- C3 amended: delete_field on an absent field raises FieldError with no
driver call and no state change; on a present field it issues exactly one
unset update keyed by the instance identity, the persisted record loses the
field, and the in-memory instance is returned unchanged, still carrying the
field. -/
theorem C3_delete_field_amended :
    (∀ (cls : Option String) (self : Doc) (db : DB) (field : String),
      lookupAssoc self field = none →
      delete_field cls self db field = (self, db, .error .fieldError)) ∧
    (∀ (c : String) (self : Doc) (db : DB) (field : String) (w idv : Value)
        (docs : List Doc) (sd : Doc),
      lookupAssoc self field = some w →
      lookupAssoc self "_id" = some idv →
      lookupAssoc db.colls c = some docs →
      findDocById docs idv = some sd →
      field ≠ "_id" →
      (sd.map Prod.fst).Nodup →
      ∃ db1,
        delete_field (some c) self db field = (self, db1, .ok ()) ∧
        db1.ops = db.ops ++ [DriverOp.unsetOne c idv field] ∧
        (∃ docs1, lookupAssoc db1.colls c = some docs1 ∧
          findDocById docs1 idv = some (removeField sd field) ∧
          lookupAssoc (removeField sd field) field = none) ∧
        lookupAssoc self field = some w) := by
  constructor
  · intro cls self db field h
    simp [delete_field, h]
  · intro c self db field w idv docs sd hw hid hcolls hsd hfne hnd
    refine ⟨⟨setField db.colls c (unsetFirstById docs idv field), db.nextOid,
      db.ops ++ [DriverOp.unsetOne c idv field]⟩, ?_, rfl, ?_, hw⟩
    · simp [delete_field, hw, hid, modifyColl, hcolls]
    · refine ⟨unsetFirstById docs idv field, lookupAssoc_setField_self _ _ _, ?_, ?_⟩
      · refine findDocById_unsetFirstById docs idv sd field hsd ?_
        rw [docIdMatches_removeField_ne sd field idv hfne]
        exact findDocById_matches docs idv sd hsd
      · exact lookupAssoc_removeField_self sd field hnd

/-- Witness for the amended C3 at concrete inputs: the absent-field branch
raises FieldError, and the present-field branch unsets the persisted field
while the returned instance keeps it. -/
theorem C3_delete_field_amended_witness :
    (delete_field (some "users") [("_id", Value.oid 1)]
        ⟨[("users", [])], 0, []⟩ "gone" = ([("_id", Value.oid 1)],
        ⟨[("users", [])], 0, []⟩, .error .fieldError)) ∧
    (∃ db1,
      delete_field (some "users") [("_id", Value.oid 1), ("y", Value.int 9)]
          ⟨[("users", [[("_id", Value.oid 1), ("y", Value.int 9)]])], 2, []⟩ "y" =
        ([("_id", Value.oid 1), ("y", Value.int 9)], db1, .ok ()) ∧
      db1.ops = [] ++ [DriverOp.unsetOne "users" (Value.oid 1) "y"] ∧
      (∃ docs1, lookupAssoc db1.colls "users" = some docs1 ∧
        findDocById docs1 (Value.oid 1) =
          some (removeField [("_id", Value.oid 1), ("y", Value.int 9)] "y") ∧
        lookupAssoc (removeField [("_id", Value.oid 1), ("y", Value.int 9)] "y") "y" = none) ∧
      lookupAssoc [(("_id" : String), Value.oid 1), ("y", Value.int 9)] "y" =
        some (Value.int 9)) :=
  ⟨C3_delete_field_amended.1 (some "users") [("_id", Value.oid 1)]
      ⟨[("users", [])], 0, []⟩ "gone" rfl,
   C3_delete_field_amended.2 "users" [("_id", Value.oid 1), ("y", Value.int 9)]
      ⟨[("users", [[("_id", Value.oid 1), ("y", Value.int 9)]])], 2, []⟩ "y"
      (Value.int 9) (Value.oid 1) [[("_id", Value.oid 1), ("y", Value.int 9)]]
      [("_id", Value.oid 1), ("y", Value.int 9)] rfl rfl rfl rfl (by decide) (by decide)⟩

/-- C5: the two model-creation paths differ on the attribute-assignment
guard: assignment through the register_model path always succeeds, while
the model-decorator path rejects an attribute absent from both the instance
and the class. -/
theorem C5_setattr_guard_asymmetry :
    (∀ (self : Doc) (name : String) (v : Value),
      registeredSetattr self name v = .ok (setField self name v)) ∧
    (∀ (classAttrs : List String) (self : Doc) (name : String) (v : Value),
      lookupAssoc self name = none → classAttrs.contains name = false →
      modelSetattr classAttrs self name v = .error .attributeError) := by
  constructor
  · intro self name v
    rfl
  · intro classAttrs self name v h1 h2
    unfold modelSetattr
    rw [h1, h2]
    rfl

/-- Witness for C5: assigning an undeclared attribute succeeds on a
registered-model instance and fails on a model-decorator instance. -/
theorem C5_setattr_guard_asymmetry_witness :
    registeredSetattr [("_id", Value.null)] "extra" (Value.int 1) =
      .ok (setField [("_id", Value.null)] "extra" (Value.int 1)) ∧
    modelSetattr ["collection"] [("_id", Value.null)] "extra" (Value.int 1) =
      .error .attributeError :=
  ⟨C5_setattr_guard_asymmetry.1 [("_id", Value.null)] "extra" (Value.int 1),
   C5_setattr_guard_asymmetry.2 ["collection"] [("_id", Value.null)] "extra"
     (Value.int 1) rfl rfl⟩

/-- C8: get_by_id on a string that is not a well-formed ObjectId returns an
absent value instead of raising, whatever the collection holds. -/
theorem C8_get_by_id_malformed (docs : List Doc) (s : String)
    (h : isValidObjectId s = false) : get_by_id docs s = none := by
  simp [get_by_id, h]

/-- Witness for C8 on a concrete malformed identity string. -/
theorem C8_get_by_id_malformed_witness :
    isValidObjectId "not-a-valid-id" = false ∧
    get_by_id [[("_id", Value.oid 1)]] "not-a-valid-id" = none :=
  ⟨rfl, C8_get_by_id_malformed [[("_id", Value.oid 1)]] "not-a-valid-id" rfl⟩

/-- C10: get_by_id on a well-formed identity matching no stored record does
not return an absent value: the driver result None flows into the class
constructor, yielding an instance whose only field is a null identity,
identical to a freshly constructed empty document. -/
theorem C10_get_by_id_not_found (docs : List Doc) (s : String)
    (hv : isValidObjectId s = true)
    (hn : findDocById docs (Value.oid (hexValue s)) = none) :
    get_by_id docs s = some [("_id", Value.null)] ∧
    get_by_id docs s = some (docInit [] []) ∧
    get_by_id docs s ≠ none := by
  have h1 : get_by_id docs s = some (docInit [Value.null] []) := by
    simp [get_by_id, hv, hn]
  refine ⟨h1, h1, ?_⟩
  rw [h1]
  exact fun hc => Option.noConfusion hc

/-- Witness for C10: a well-formed 24-character hexadecimal identity absent
from the collection yields the null-identity instance, not an absent
value. -/
theorem C10_get_by_id_not_found_witness :
    isValidObjectId "0123456789abcdef01234567" = true ∧
    get_by_id [[("_id", Value.oid 1)]] "0123456789abcdef01234567" =
      some [("_id", Value.null)] ∧
    get_by_id [[("_id", Value.oid 1)]] "0123456789abcdef01234567" ≠ none := by
  have h := C10_get_by_id_not_found [[("_id", Value.oid 1)]] "0123456789abcdef01234567"
    (by decide) (by rfl)
  exact ⟨by decide, h.1, h.2.2⟩

theorem initLoop_succ (fails : Nat → Bool) (delay : Int) (i rem : Nat) :
    initLoop fails delay i (rem + 1) =
      if fails i then
        if rem = 0 then (.connectionError, 1, [])
        else
          ((initLoop fails delay (i + 1) rem).1,
           (initLoop fails delay (i + 1) rem).2.1 + 1,
           delay ^ i :: (initLoop fails delay (i + 1) rem).2.2)
      else (.ok, 1, []) := rfl

theorem initLoop_all_fail (fails : Nat → Bool) (delay : Int) :
    ∀ rem : Nat, 1 ≤ rem → ∀ i : Nat,
      (∀ j, i ≤ j → j < i + rem → fails j = true) →
      initLoop fails delay i rem =
        (.connectionError, rem, (List.range (rem - 1)).map (fun j => delay ^ (i + j))) := by
  intro rem
  induction rem with
  | zero => intro h; exact absurd h (by omega)
  | succ r ih =>
    intro _ i hf
    have hfi : fails i = true := hf i le_rfl (by omega)
    cases r with
    | zero => simp [initLoop, hfi]
    | succ r2 =>
      have hrec := ih (by omega) (i + 1) (fun j hj1 hj2 => hf j (by omega) (by omega))
      have hlist : (List.range (r2 + 1)).map (fun j => delay ^ (i + j)) =
          delay ^ i :: (List.range r2).map (fun j => delay ^ (i + 1 + j)) := by
        rw [List.range_succ_eq_map, List.map_cons, List.map_map]
        refine congrArg₂ _ (by rw [Nat.add_zero]) ?_
        refine List.map_congr_left ?_
        intro a _
        show delay ^ (i + (a + 1)) = delay ^ (i + 1 + a)
        congr 1
        omega
      rw [initLoop_succ, if_pos hfi, if_neg (by omega : ¬(r2 + 1 = 0)), hrec]
      show (InitResult.connectionError, r2 + 1 + 1,
        delay ^ i :: (List.range r2).map (fun j => delay ^ (i + 1 + j))) = _
      rw [Nat.succ_sub_one, hlist]

/-- Counterexample to C2 as stated: a call with a retry count of zero makes
zero attempts, all of which vacuously fail, yet init_db does not raise
ConnectionError there: the loop body never runs and the final assignment
reads the unbound client variable, raising NameError. -/
theorem C2_init_zero_retries_counterexample :
    init_db (fun _ => true) 0 2 = (.nameError, 0, []) ∧
    (init_db (fun _ => true) 0 2).1 ≠ InitResult.connectionError := by
  exact ⟨rfl, by decide⟩

/-- C2 amended to calls with at least one permitted attempt: when every
attempt fails, init_db raises ConnectionError after exactly retries
attempts, sleeping delay to the power of the attempt index between
consecutive attempts; when the first attempt succeeds, one attempt is made
and no retry delay is incurred. -/
theorem C2_init_retry_amended (fails : Nat → Bool) (retries : Nat) (delay : Int)
    (hr : 1 ≤ retries) :
    ((∀ i, i < retries → fails i = true) →
      init_db fails retries delay =
        (.connectionError, retries, (List.range (retries - 1)).map (fun i => delay ^ i))) ∧
    (fails 0 = false →
      init_db fails retries delay = (.ok, 1, [])) := by
  constructor
  · intro hf
    unfold init_db
    rw [initLoop_all_fail fails delay retries hr 0 (fun j _ hj2 => hf j (by omega))]
    simp
  · intro h0
    obtain ⟨rem, rfl⟩ : ∃ rem, retries = rem + 1 := ⟨retries - 1, by omega⟩
    simp [init_db, initLoop, h0]

/-- Witness for the amended C2: with three permitted attempts all failing
and base delay 2, init_db raises ConnectionError after 3 attempts with
sleeps of 1 and 2 seconds; with a succeeding first attempt it returns after
one attempt and no sleep. -/
theorem C2_init_retry_amended_witness :
    init_db (fun _ => true) 3 2 = (.connectionError, 3, [1, 2]) ∧
    init_db (fun _ => false) 3 2 = (.ok, 1, []) := by
  have h1 := (C2_init_retry_amended (fun _ => true) 3 2 (by omega)).1 (fun i _ => rfl)
  have h2 := (C2_init_retry_amended (fun _ => false) 3 2 (by omega)).2 rfl
  refine ⟨?_, h2⟩
  rw [h1]
  rfl

theorem pickValue_kw (kwargs : Doc) (args : List Value) (name : String) (ty : Ty)
    (v : Value) (h : lookupAssoc kwargs name = some v) :
    pickValue kwargs args name ty = (v, args, removeField kwargs name) := by
  simp [pickValue, h]

theorem pickValue_arg (kwargs : Doc) (a : Value) (more : List Value) (name : String)
    (ty : Ty) (h : lookupAssoc kwargs name = none) :
    pickValue kwargs (a :: more) name ty = (a, more, kwargs) := by
  simp [pickValue, h]

theorem pickValue_default (kwargs : Doc) (name : String) (ty : Ty)
    (h : lookupAssoc kwargs name = none) :
    pickValue kwargs [] name ty = (tyZero ty, [], kwargs) := by
  simp [pickValue, h]

theorem modelInitLoop_cons (n1 : String) (t1 : Ty) (rest : List (String × Ty))
    (args : List Value) (kwargs acc : Doc) :
    modelInitLoop ((n1, t1) :: rest) args kwargs acc =
      if isInstanceOf (pickValue kwargs args n1 t1).1 t1 then
        modelInitLoop rest (pickValue kwargs args n1 t1).2.1 (pickValue kwargs args n1 t1).2.2
          (setField acc n1 (pickValue kwargs args n1 t1).1)
      else
        .error .typeError := rfl

theorem modelInitLoop_typeError (annots : List (String × Ty)) :
    ∀ (args : List Value) (kwargs acc : Doc) (name : String) (ty : Ty) (v : Value),
      (annots.map Prod.fst).Nodup → (name, ty) ∈ annots →
      lookupAssoc kwargs name = some v → isInstanceOf v ty = false →
      modelInitLoop annots args kwargs acc = .error .typeError := by
  induction annots with
  | nil =>
    intro args kwargs acc name ty v _ hmem _ _
    simp at hmem
  | cons a rest ih =>
    intro args kwargs acc name ty v hnd hmem hkw hbad
    obtain ⟨n1, t1⟩ := a
    simp only [List.map_cons, List.nodup_cons] at hnd
    rw [modelInitLoop_cons]
    rcases List.mem_cons.mp hmem with heq | hmem2
    · have hn : name = n1 := congrArg Prod.fst heq
      have ht : ty = t1 := congrArg Prod.snd heq
      subst hn
      subst ht
      rw [pickValue_kw kwargs args name ty v hkw]
      simp [hbad]
    · have hne : n1 ≠ name := fun hc => hnd.1 (by
        rw [hc]
        exact List.mem_map_of_mem Prod.fst hmem2)
      cases hk1 : lookupAssoc kwargs n1 with
      | some w =>
        rw [pickValue_kw kwargs args n1 t1 w hk1]
        by_cases hchk : isInstanceOf w t1 = true
        · rw [if_pos hchk]
          refine ih args (removeField kwargs n1) _ name ty v hnd.2 hmem2 ?_ hbad
          rw [lookupAssoc_removeField_ne kwargs (Ne.symm hne)]
          exact hkw
        · rw [if_neg hchk]
      | none =>
        cases args with
        | nil =>
          rw [pickValue_default kwargs n1 t1 hk1]
          rw [if_pos (tyZero_isInstanceOf t1)]
          exact ih [] kwargs _ name ty v hnd.2 hmem2 hkw hbad
        | cons a more =>
          rw [pickValue_arg kwargs a more n1 t1 hk1]
          by_cases hchk : isInstanceOf a t1 = true
          · rw [if_pos hchk]
            exact ih more kwargs _ name ty v hnd.2 hmem2 hkw hbad
          · rw [if_neg hchk]

theorem modelInitLoop_preserve (annots : List (String × Ty)) :
    ∀ (args : List Value) (kwargs acc acc1 : Doc) (args1 : List Value) (kwargs1 : Doc)
      (m : String),
      m ∉ annots.map Prod.fst →
      modelInitLoop annots args kwargs acc = .ok (acc1, args1, kwargs1) →
      lookupAssoc acc1 m = lookupAssoc acc m := by
  induction annots with
  | nil =>
    intro args kwargs acc acc1 args1 kwargs1 m _ hok
    simp only [modelInitLoop, Except.ok.injEq, Prod.mk.injEq] at hok
    rw [← hok.1]
  | cons a rest ih =>
    intro args kwargs acc acc1 args1 kwargs1 m hm hok
    obtain ⟨n1, t1⟩ := a
    simp only [List.map_cons, List.mem_cons] at hm
    push_neg at hm
    rw [modelInitLoop_cons] at hok
    by_cases hchk : isInstanceOf (pickValue kwargs args n1 t1).1 t1 = true
    · rw [if_pos hchk] at hok
      rw [ih _ _ _ _ _ _ m hm.2 hok]
      exact lookupAssoc_setField_ne acc _ hm.1
    · rw [if_neg hchk] at hok
      exact absurd hok (by simp)

theorem modelInitLoop_args_nil (annots : List (String × Ty)) :
    ∀ (kwargs acc acc1 : Doc) (args1 : List Value) (kwargs1 : Doc),
      modelInitLoop annots [] kwargs acc = .ok (acc1, args1, kwargs1) → args1 = [] := by
  induction annots with
  | nil =>
    intro kwargs acc acc1 args1 kwargs1 hok
    simp only [modelInitLoop, Except.ok.injEq, Prod.mk.injEq] at hok
    exact hok.2.1.symm
  | cons a rest ih =>
    intro kwargs acc acc1 args1 kwargs1 hok
    obtain ⟨n1, t1⟩ := a
    rw [modelInitLoop_cons] at hok
    cases hk1 : lookupAssoc kwargs n1 with
    | some w =>
      rw [pickValue_kw kwargs [] n1 t1 w hk1] at hok
      by_cases hchk : isInstanceOf w t1 = true
      · rw [if_pos hchk] at hok
        exact ih _ _ _ _ _ hok
      · rw [if_neg hchk] at hok
        exact absurd hok (by simp)
    | none =>
      rw [pickValue_default kwargs n1 t1 hk1] at hok
      rw [if_pos (tyZero_isInstanceOf t1)] at hok
      exact ih _ _ _ _ _ hok

theorem modelInitLoop_kwargs_none (annots : List (String × Ty)) :
    ∀ (args : List Value) (kwargs acc acc1 : Doc) (args1 : List Value) (kwargs1 : Doc)
      (m : String),
      lookupAssoc kwargs m = none →
      modelInitLoop annots args kwargs acc = .ok (acc1, args1, kwargs1) →
      lookupAssoc kwargs1 m = none := by
  induction annots with
  | nil =>
    intro args kwargs acc acc1 args1 kwargs1 m hm hok
    simp only [modelInitLoop, Except.ok.injEq, Prod.mk.injEq] at hok
    rw [← hok.2.2]
    exact hm
  | cons a rest ih =>
    intro args kwargs acc acc1 args1 kwargs1 m hm hok
    obtain ⟨n1, t1⟩ := a
    rw [modelInitLoop_cons] at hok
    cases hk1 : lookupAssoc kwargs n1 with
    | some w =>
      rw [pickValue_kw kwargs args n1 t1 w hk1] at hok
      by_cases hchk : isInstanceOf w t1 = true
      · rw [if_pos hchk] at hok
        exact ih _ _ _ _ _ _ m (lookupAssoc_removeField_none kwargs n1 m hm) hok
      · rw [if_neg hchk] at hok
        exact absurd hok (by simp)
    | none =>
      cases args with
      | nil =>
        rw [pickValue_default kwargs n1 t1 hk1] at hok
        rw [if_pos (tyZero_isInstanceOf t1)] at hok
        exact ih _ _ _ _ _ _ m hm hok
      | cons a more =>
        rw [pickValue_arg kwargs a more n1 t1 hk1] at hok
        by_cases hchk : isInstanceOf a t1 = true
        · rw [if_pos hchk] at hok
          exact ih _ _ _ _ _ _ m hm hok
        · rw [if_neg hchk] at hok
          exact absurd hok (by simp)

theorem modelInitLoop_zero (annots : List (String × Ty)) :
    ∀ (kwargs acc acc1 : Doc) (args1 : List Value) (kwargs1 : Doc) (name : String) (ty : Ty),
      (annots.map Prod.fst).Nodup → (name, ty) ∈ annots →
      lookupAssoc kwargs name = none →
      modelInitLoop annots [] kwargs acc = .ok (acc1, args1, kwargs1) →
      lookupAssoc acc1 name = some (tyZero ty) := by
  induction annots with
  | nil =>
    intro kwargs acc acc1 args1 kwargs1 name ty _ hmem _ _
    simp at hmem
  | cons a rest ih =>
    intro kwargs acc acc1 args1 kwargs1 name ty hnd hmem hkw hok
    obtain ⟨n1, t1⟩ := a
    simp only [List.map_cons, List.nodup_cons] at hnd
    rw [modelInitLoop_cons] at hok
    rcases List.mem_cons.mp hmem with heq | hmem2
    · have hn : name = n1 := congrArg Prod.fst heq
      have ht : ty = t1 := congrArg Prod.snd heq
      subst hn
      subst ht
      rw [pickValue_default kwargs name ty hkw] at hok
      rw [if_pos (tyZero_isInstanceOf ty)] at hok
      rw [modelInitLoop_preserve rest _ _ _ _ _ _ name hnd.1 hok]
      exact lookupAssoc_setField_self acc name (tyZero ty)
    · have hne : n1 ≠ name := fun hc => hnd.1 (by
        rw [hc]
        exact List.mem_map_of_mem Prod.fst hmem2)
      cases hk1 : lookupAssoc kwargs n1 with
      | some w =>
        rw [pickValue_kw kwargs [] n1 t1 w hk1] at hok
        by_cases hchk : isInstanceOf w t1 = true
        · rw [if_pos hchk] at hok
          refine ih _ _ _ _ _ name ty hnd.2 hmem2 ?_ hok
          rw [lookupAssoc_removeField_ne kwargs (Ne.symm hne)]
          exact hkw
        · rw [if_neg hchk] at hok
          exact absurd hok (by simp)
      | none =>
        rw [pickValue_default kwargs n1 t1 hk1] at hok
        rw [if_pos (tyZero_isInstanceOf t1)] at hok
        exact ih _ _ _ _ _ name ty hnd.2 hmem2 hkw hok

theorem docInitOn_nil_lookup (self0 kwargs : Doc) (m : String)
    (hm : lookupAssoc kwargs m = none) (hmid : m ≠ "_id") :
    lookupAssoc (docInitOn self0 [] kwargs) m = lookupAssoc self0 m := by
  have hmap : lookupAssoc (kwargs.map fun kv => (kv.1, flattenVal kv.2)) m = none := by
    rw [lookupAssoc_map_flatten, hm]; rfl
  simp only [docInitOn]
  rw [lookupAssoc_updateFields_none _ _ hmap]
  by_cases hid : (lookupAssoc kwargs "_id").isNone = true
  · rw [if_pos hid]
    exact lookupAssoc_setField_ne self0 _ hmid
  · rw [if_neg hid]

/-- C4: the model decorator constructor raises TypeError on a keyword value
that is not an instance of the annotated type, fills an omitted annotated
field with the annotated type called with no arguments, and after
construction an assignment to an attribute absent from both the instance
and the class raises AttributeError. -/
theorem C4_model_decorator :
    (∀ (annots : List (String × Ty)) (args : List Value) (kwargs : Doc)
        (name : String) (ty : Ty) (v : Value),
      (annots.map Prod.fst).Nodup → (name, ty) ∈ annots →
      lookupAssoc kwargs name = some v → isInstanceOf v ty = false →
      modelInit annots args kwargs = .error .typeError) ∧
    (∀ (annots : List (String × Ty)) (kwargs : Doc) (name : String) (ty : Ty) (r : Doc),
      (annots.map Prod.fst).Nodup → (name, ty) ∈ annots →
      lookupAssoc kwargs name = none → name ≠ "_id" →
      modelInit annots [] kwargs = .ok r →
      lookupAssoc r name = some (tyZero ty)) ∧
    (∀ (classAttrs : List String) (self : Doc) (name : String) (v : Value),
      lookupAssoc self name = none → classAttrs.contains name = false →
      modelSetattr classAttrs self name v = .error .attributeError) := by
  refine ⟨?_, ?_, ?_⟩
  · intro annots args kwargs name ty v hnd hmem hkw hbad
    unfold modelInit
    rw [modelInitLoop_typeError annots args kwargs [] name ty v hnd hmem hkw hbad]
  · intro annots kwargs name ty r hnd hmem hkw hid hok
    cases hloop : modelInitLoop annots [] kwargs [] with
    | error e =>
      rw [modelInit, hloop] at hok
      exact absurd hok (by simp)
    | ok t =>
      obtain ⟨acc1, args1, kwargs1⟩ := t
      rw [modelInit, hloop] at hok
      simp only [Except.ok.injEq] at hok
      have hacc : lookupAssoc acc1 name = some (tyZero ty) :=
        modelInitLoop_zero annots kwargs [] acc1 args1 kwargs1 name ty hnd hmem hkw hloop
      have hargs : args1 = [] :=
        modelInitLoop_args_nil annots kwargs [] acc1 args1 kwargs1 hloop
      have hkw1 : lookupAssoc kwargs1 name = none :=
        modelInitLoop_kwargs_none annots [] kwargs [] acc1 args1 kwargs1 name hkw hloop
      subst hargs
      rw [← hok, docInitOn_nil_lookup _ _ _ hkw1 hid,
        lookupAssoc_setField_ne acc1 _ hid]
      exact hacc
  · intro classAttrs self name v h1 h2
    unfold modelSetattr
    rw [h1, h2]
    rfl

/-- Witness for C4: a string value for an int-annotated field raises
TypeError; omitting the int field yields its zero value 0; and assigning an
undeclared attribute raises AttributeError. -/
theorem C4_model_decorator_witness :
    modelInit [("age", Ty.tInt)] [] [("age", Value.str "x")] = .error .typeError ∧
    (modelInit [("age", Ty.tInt), ("nm", Ty.tStr)] [] [("nm", Value.str "bob")] =
      .ok [("age", Value.int 0), ("nm", Value.str "bob"), ("_id", Value.null)] ∧
     lookupAssoc [(("age" : String), Value.int 0), ("nm", Value.str "bob"),
       ("_id", Value.null)] "age" = some (tyZero Ty.tInt)) ∧
    modelSetattr ["collection"] [("age", Value.int 0), ("_id", Value.null)]
      "undeclared" (Value.int 1) = .error .attributeError :=
  ⟨C4_model_decorator.1 [("age", Ty.tInt)] [] [("age", Value.str "x")] "age" Ty.tInt
      (Value.str "x") (by decide) (by simp) rfl rfl,
   ⟨rfl,
    C4_model_decorator.2.1 [("age", Ty.tInt), ("nm", Ty.tStr)] [("nm", Value.str "bob")]
      "age" Ty.tInt [("age", Value.int 0), ("nm", Value.str "bob"), ("_id", Value.null)]
      (by decide) (by simp) rfl (by decide) rfl⟩,
   C4_model_decorator.2.2 ["collection"] [("age", Value.int 0), ("_id", Value.null)]
     "undeclared" (Value.int 1) rfl rfl⟩

end MongoMagic
